import Mathlib

set_option maxHeartbeats 1000000

/-!  Verification model of the storage service of the JOILDA point-of-sale
repository, file src/services/storageService.ts.  JavaScript numbers are
modelled as rationals, the JSON-serialised collections kept in the fallback
store are modelled as typed lists and association lists, and each access to
the browser localStorage medium is described by an oracle value giving the
outcome of that access (success, absence, or a thrown error).  The record
and enumeration shapes below are reconstructed from their uses in
storageService.ts together with section 3 of the design document, since the
types module itself is not part of the sources. -/

/-- Product categories used by the seed catalog in storageService.ts. -/
inductive Category
  | BEBIDAS
  | TIRA_GOSTO
deriving DecidableEq, Repr

/-- Order statuses used by storageService.ts. -/
inductive OrderStatus
  | PENDING
  | PAID
  | CANCELED
deriving DecidableEq, Repr

/-- Table statuses used by storageService.ts. -/
inductive TableStatus
  | CLOSING_REQUESTED
deriving DecidableEq, Repr

/-- A catalog product.  Field layout follows the uses in storageService.ts:
id, name, description, price, category, stock, imageUrl. -/
structure Product where
  id : String
  name : String
  description : String
  price : ℚ
  category : Category
  stock : ℚ
  imageUrl : String
deriving DecidableEq, Repr

/-- A table identifier as stored on an order record: the source stores it
sometimes as a JavaScript number and sometimes as its string form. -/
inductive TId
  | num (n : Int)
  | str (s : String)
deriving DecidableEq, Repr

/-- A denormalized line item embedded in an order, as built by createOrder. -/
structure OrderItem where
  productId : String
  name : String
  price : ℚ
  quantity : ℚ
deriving DecidableEq, Repr

/-- An order record, as built by createOrder in storageService.ts. -/
structure Order where
  id : String
  tableId : TId
  status : OrderStatus
  timestamp : Int
  items : List OrderItem
  total : ℚ
  observation : String
deriving DecidableEq, Repr

/-- The per-table closing state stored under the tables key. -/
structure TableState where
  status : TableStatus
  paymentMethod : String
deriving DecidableEq, Repr

/-- An input item of createOrder: a product object plus a quantity. -/
structure CartItem where
  product : Product
  quantity : ℚ
deriving DecidableEq, Repr

/- ------------------------------------------------------------------ -/
/- The robust storage implementation (safeStorage, lines 36 to 71).    -/
/- ------------------------------------------------------------------ -/

/-- Outcome of one call of localStorage.getItem: a thrown error (access
blocked), or a returned value (none models the JavaScript null). -/
inductive MediumRead
  | throws
  | got (v : Option String)
deriving DecidableEq, Repr

/-- Outcome of one call of localStorage.setItem or removeItem. -/
inductive MediumWrite
  | throws
  | ok
deriving DecidableEq, Repr

/-- memoryStore.get: the in-memory shadow map is an association list in
insertion order, exactly as a JavaScript Map iterates. -/
def memGet (mem : List (String × String)) (key : String) : Option String :=
  (mem.find? (fun e => e.1 == key)).map (fun e => e.2)

/-- memoryStore.set: replace the value of an existing key in place,
otherwise append the new entry, as a JavaScript Map does. -/
def memSet : List (String × String) → String → String → List (String × String)
  | [], key, value => [(key, value)]
  | e :: rest, key, value =>
    if e.1 == key then (key, value) :: rest else e :: memSet rest key value

/-- memoryStore.delete. -/
def memDel : List (String × String) → String → List (String × String)
  | [], _ => []
  | e :: rest, key => if e.1 == key then rest else e :: memDel rest key

/-- The JavaScript expression memoryStore.get(key) || null: an absent key
gives null, and so does a present but empty string, because the empty
string is falsy. -/
def jsStringOrNull : Option String → Option String
  | some s => if s = "" then none else some s
  | none => none

/-- One localStorage.getItem call, with its possible thrown error made
explicit. -/
def rawGetItem (r : MediumRead) : Except String (Option String) :=
  match r with
  | .throws => .error "storage access blocked"
  | .got v => .ok v

/-- One localStorage.setItem or removeItem call. -/
def rawWrite (w : MediumWrite) : Except String Unit :=
  match w with
  | .throws => .error "storage access blocked"
  | .ok => .ok ()

/-- safeStorage.getItem (lines 39 to 52).  Reads the medium inside a try
block; on a thrown error it answers from the memory shadow; when the medium
reports null but the shadow holds the key, it answers from the shadow. -/
def safeGetItem (mem : List (String × String)) (key : String) (r : MediumRead) :
    Except String (Option String) :=
  match rawGetItem r with
  | .ok item =>
    .ok (match item with
      | none =>
        if (memGet mem key).isSome then jsStringOrNull (memGet mem key) else none
      | some v => some v)
  | .error _ => .ok (jsStringOrNull (memGet mem key))

/-- safeStorage.setItem (lines 53 to 62).  Always writes the memory shadow
first; a medium write failure is swallowed. -/
def safeSetItem (mem : List (String × String)) (key value : String) (w : MediumWrite) :
    Except String (List (String × String)) :=
  let mem1 := memSet mem key value
  match rawWrite w with
  | .ok _ => .ok mem1
  | .error _ => .ok mem1

/-- safeStorage.removeItem (lines 63 to 70). -/
def safeRemoveItem (mem : List (String × String)) (key : String) (w : MediumWrite) :
    Except String (List (String × String)) :=
  let mem1 := memDel mem key
  match rawWrite w with
  | .ok _ => .ok mem1
  | .error _ => .ok mem1

/- ------------------------------------------------------------------ -/
/- The fallback store state and the local-mode operations.             -/
/- ------------------------------------------------------------------ -/

/-- The typed view of the three fallback-store collection entries.  A none
field models a key the store has never held (getItem answers null there);
a some field models a present serialised collection.  JSON round-tripping
is taken as faithful, and reads and writes of the store go through the
memory shadow of safeStorage, so within one session they behave as direct
reads and writes of this state. -/
structure Store where
  products : Option (List Product)
  orders : Option (List Order)
  tables : Option (List (String × TableState))
deriving DecidableEq, Repr

/-- JSON.parse(safeStorage.getItem(PRODUCTS) || given the default list). -/
def getProducts (s : Store) : List Product := s.products.getD []

/-- JSON.parse(safeStorage.getItem(ORDERS) with default empty list). -/
def getOrders (s : Store) : List Order := s.orders.getD []

/-- JSON.parse(safeStorage.getItem(TABLES) with default empty object). -/
def getTables (s : Store) : List (String × TableState) := s.tables.getD []

/-- Replace the first element satisfying the predicate by its image under
f, leaving everything else in place.  This is the effect of the JavaScript
pattern findIndex followed by an indexed assignment, and of find followed
by a mutation of the found element. -/
def updateFirst {α : Type} (p : α → Bool) (f : α → α) : List α → List α
  | [] => []
  | a :: rest => if p a then f a :: rest else a :: updateFirst p f rest

/-- The restock merge applied in saveProduct when an incoming product with
no usable identifier matches an existing product by name (local mode,
lines 274 to 277): stock is summed, price and image are overwritten, the
image falling back to the existing one when the incoming one is empty.
The description field is not touched by this branch of the source. -/
def mergeRestock (existing incoming : Product) : Product :=
  { existing with
    stock := existing.stock + incoming.stock,
    price := incoming.price,
    imageUrl := if incoming.imageUrl = "" then existing.imageUrl else incoming.imageUrl }

/-- The identifier regeneration of lines 266 to 269: any identifier absent
or shorter than five characters is replaced with a generated one derived
from the current time (the JavaScript test is falsiness or length below
five, and the empty string has length zero, so the test reduces to the
length test). -/
def withGeneratedId (incoming : Product) (now : Int) : Product :=
  if incoming.id.length < 5 then { incoming with id := "local_" ++ toString now }
  else incoming

/-- saveProduct, local branch, as a transformation of the products list
(lines 259 to 285).  The two index lookups use the incoming identifier as
given, before the regeneration; an identifier match replaces the record, a
name match (among records with a different identifier) receives the
restock merge, and otherwise the record is appended. -/
def saveProductList (products : List Product) (incoming : Product) (now : Int) :
    List Product :=
  if products.any (fun p => p.id == incoming.id) then
    updateFirst (fun p => p.id == incoming.id)
      (fun _ => withGeneratedId incoming now) products
  else if products.any (fun p => p.name == incoming.name && p.id != incoming.id) then
    updateFirst (fun p => p.name == incoming.name && p.id != incoming.id)
      (fun p => mergeRestock p (withGeneratedId incoming now)) products
  else products ++ [withGeneratedId incoming now]

/-- saveProduct, local branch: read the catalog, transform it, rewrite the
products entry. -/
def saveProductLocal (s : Store) (incoming : Product) (now : Int) : Store :=
  { s with products := some (saveProductList (getProducts s) incoming now) }

/-- saveProduct, cloud branch (lines 213 to 247), as a transformation of
the products collection.  With a non-empty identifier all fields except
the identifier are written onto the matching document; otherwise the first
document with the same name receives the restock merge, this time with the
description overwritten too (lines 233 to 238); otherwise a new document is
appended under a backend-generated identifier. -/
def saveProductCloud (ps : List Product) (incoming : Product) (newId : String) :
    List Product :=
  if incoming.id.length > 0 then
    updateFirst (fun p => p.id == incoming.id) (fun _ => incoming) ps
  else if ps.any (fun p => p.name == incoming.name) then
    updateFirst (fun p => p.name == incoming.name)
      (fun p =>
        { p with
          stock := p.stock + incoming.stock,
          price := incoming.price,
          description := incoming.description,
          imageUrl := if incoming.imageUrl = "" then p.imageUrl else incoming.imageUrl }) ps
  else ps ++ [{ incoming with id := newId }]

/-- The order record built by createOrder (lines 298 to 310): status
PENDING, current timestamp, denormalized line items copied from the
supplied cart, total folded up as price times quantity over the cart, and
the local-mode identifier Date.now().toString(). -/
def mkOrderData (tableId : Int) (items : List CartItem) (observation : Option String)
    (now : Int) : Order :=
  { id := toString now,
    tableId := TId.num tableId,
    status := OrderStatus.PENDING,
    timestamp := now,
    items := items.map (fun i =>
      { productId := i.product.id, name := i.product.name,
        price := i.product.price, quantity := i.quantity }),
    total := items.foldl (fun acc curr => acc + curr.product.price * curr.quantity) 0,
    observation := observation.getD "" }

/-- The JavaScript Math.max of two numbers. -/
def jsMax (a b : ℚ) : ℚ := if a < b then b else a

/-- One step of the local-mode stock decrement loop of createOrder (lines
326 to 331): the first product whose identifier equals the item product
identifier has its stock lowered by the quantity, floored at zero; when no
product matches, nothing changes. -/
def applyDecrement (ps : List Product) (item : CartItem) : List Product :=
  updateFirst (fun p => p.id == item.product.id)
    (fun p => { p with stock := jsMax 0 (p.stock - item.quantity) }) ps

/-- createOrder, local branch (lines 324 to 338): decrement the stock of
every referenced product, rewrite the catalog, and append the new order. -/
def createOrderLocal (s : Store) (tableId : Int) (items : List CartItem)
    (observation : Option String) (now : Int) : Store :=
  let products1 := items.foldl applyDecrement (getProducts s)
  let newOrder := mkOrderData tableId items observation now
  { s with
    products := some products1,
    orders := some (getOrders s ++ [newOrder]) }

/-- One step of the stock restoration loop of updateOrderStatus (lines 352
to 355): the first product matching the line item gets the quantity added
back; an absent product changes nothing. -/
def applyRestore (ps : List Product) (item : OrderItem) : List Product :=
  updateFirst (fun p => p.id == item.productId)
    (fun p => { p with stock := p.stock + item.quantity }) ps

/-- updateOrderStatus, local branch (lines 346 to 361).  When the order is
not found nothing is written.  When the transition enters CANCELED from a
different status, every line item quantity is restored to the catalog
before the status is set. -/
def updateOrderStatusLocal (s : Store) (orderId : String) (status : OrderStatus) :
    Store :=
  let orders := getOrders s
  match orders.find? (fun o => o.id == orderId) with
  | none => s
  | some o =>
    let products1 :=
      if status = OrderStatus.CANCELED ∧ o.status ≠ OrderStatus.CANCELED then
        some (o.items.foldl applyRestore (getProducts s))
      else s.products
    { s with
      products := products1,
      orders := some (updateFirst (fun q => q.id == orderId)
        (fun q => { q with status := status }) orders) }

/-- requestTableClose, local branch (lines 370 to 374): upsert the table
entry under the string form of the numeric key, as a JavaScript object
does. -/
def tblSet : List (String × TableState) → String → TableState →
    List (String × TableState)
  | [], key, value => [(key, value)]
  | e :: rest, key, value =>
    if e.1 == key then (key, value) :: rest else e :: tblSet rest key value

/-- Deletion of a key of a JavaScript object serialised as an association
list; object keys are unique, so at most the first occurrence matters. -/
def tblDel : List (String × TableState) → String → List (String × TableState)
  | [], _ => []
  | e :: rest, key => if e.1 == key then rest else e :: tblDel rest key

def requestTableCloseLocal (s : Store) (tableId : Int) (paymentMethod : String) :
    Store :=
  { s with
    tables := some (tblSet (getTables s) (toString tableId)
      { status := TableStatus.CLOSING_REQUESTED, paymentMethod := paymentMethod }) }

/-- The JavaScript loose equality o.tableId == tableId of line 418, which
compares a numeric table identifier with a stored identifier that may be a
number or a string; a string operand is coerced to a number first. -/
def looseEqInt (t : TId) (n : Int) : Bool :=
  match t with
  | .num m => m == n
  | .str s => s.toInt? == some n

/-- The per-order transformation of finalizeTable, local branch (lines 416
to 422): any order of the table whose status is not CANCELED is re-tagged
PAID. -/
def payOff (tableId : Int) (o : Order) : Order :=
  if looseEqInt o.tableId tableId && o.status != OrderStatus.CANCELED then
    { o with status := OrderStatus.PAID }
  else o

/-- finalizeTable, local branch (lines 409 to 424): drop the table entry,
then map the re-tagging over the whole order collection. -/
def finalizeTableLocal (s : Store) (tableId : Int) : Store :=
  { s with
    tables := some (tblDel (getTables s) (toString tableId)),
    orders := some ((getOrders s).map (payOff tableId)) }

/- ------------------------------------------------------------------ -/
/- The cloud branch of finalizeTable (lines 377 to 407).               -/
/- ------------------------------------------------------------------ -/

/-- The fields of an order document that finalizeTable reads in cloud
mode. -/
structure CloudOrder where
  id : String
  tableId : TId
  status : OrderStatus
deriving DecidableEq, Repr

/-- The backend collections touched by finalizeTable in cloud mode. -/
structure CloudState where
  orders : List CloudOrder
  tables : List (String × TableState)
deriving DecidableEq, Repr

/-- The union of the two snapshots of lines 384 to 387: the orders whose
stored table identifier equals the number, followed by those whose stored
identifier equals its string form (backend equality is typed, so the two
queries are disjoint on well-typed documents but may overlap per
identifier). -/
def matchedDocs (s : CloudState) (tableId : Int) : List CloudOrder :=
  s.orders.filter (fun o => o.tableId == TId.num tableId) ++
    s.orders.filter (fun o => o.tableId == TId.str (toString tableId))

/-- The deduplicating pass of processDoc (lines 390 to 403): walk the
concatenated snapshots, skip a document identifier already seen, and
collect the identifiers of first-seen documents whose status is neither
CANCELED nor PAID. -/
def collectUpdates : List CloudOrder → List String → List String
  | [], _ => []
  | o :: rest, seen =>
    if o.id ∈ seen then collectUpdates rest seen
    else if o.status ≠ OrderStatus.CANCELED ∧ o.status ≠ OrderStatus.PAID then
      o.id :: collectUpdates rest (o.id :: seen)
    else collectUpdates rest (o.id :: seen)

/-- The effect of the batched updateDoc calls: every document whose
identifier was collected is re-tagged PAID. -/
def markPaid (upd : List String) (o : CloudOrder) : CloudOrder :=
  if o.id ∈ upd then { o with status := OrderStatus.PAID } else o

/-- finalizeTable, cloud branch: delete the table document, then apply the
collected status updates; all updates complete before the call returns. -/
def finalizeTableCloud (s : CloudState) (tableId : Int) : CloudState :=
  let upd := collectUpdates (matchedDocs s tableId) []
  { orders := s.orders.map (markPaid upd),
    tables := tblDel s.tables (toString tableId) }

/- ------------------------------------------------------------------ -/
/- First-run seeding of the products subscription (lines 155 to 169).  -/
/- ------------------------------------------------------------------ -/

/-- The hardcoded seed catalog INITIAL_PRODUCTS of lines 18 to 23. -/
def INITIAL_PRODUCTS : List Product :=
  [ { id := "1", name := "Cerveja Gelada 600ml", description := "Estupidamente gelada",
      price := 15, category := Category.BEBIDAS, stock := 48,
      imageUrl := "https://picsum.photos/200/200?random=1" },
    { id := "2", name := "Água de Coco", description := "Natural da fruta",
      price := 8, category := Category.BEBIDAS, stock := 20,
      imageUrl := "https://picsum.photos/200/200?random=2" },
    { id := "3", name := "Isca de Peixe", description := "Acompanha molho tártaro",
      price := 45, category := Category.TIRA_GOSTO, stock := 10,
      imageUrl := "https://picsum.photos/200/200?random=3" },
    { id := "4", name := "Batata Frita", description := "Porção generosa",
      price := 25, category := Category.TIRA_GOSTO, stock := 15,
      imageUrl := "https://picsum.photos/200/200?random=4" } ]

/-- The first fetch of subscribeProducts in fallback mode: when the
products entry has never been written, seed it and deliver the seed;
otherwise deliver the stored collection unchanged.  The delivered list is
the first component, the store after the fetch the second. -/
def subscribeProductsFirst (s : Store) : List Product × Store :=
  match s.products with
  | none => (INITIAL_PRODUCTS, { s with products := some INITIAL_PRODUCTS })
  | some ps => (ps, s)

/- ------------------------------------------------------------------ -/
/- Initialization (init, lines 78 to 127).                             -/
/- ------------------------------------------------------------------ -/

/-- The connection credential shape of lines 8 to 15. -/
structure DatabaseConfig where
  apiKey : String
  authDomain : String
  projectId : String
  storageBucket : String
  messagingSenderId : String
  appId : String
deriving DecidableEq, Repr

/-- Whether the pattern occurs as a contiguous run inside the character
list: the JavaScript String.prototype.includes on the underlying
characters. -/
def containsRun (pat : List Char) : List Char → Bool
  | [] => pat.isEmpty
  | c :: rest => pat.isPrefixOf (c :: rest) || containsRun pat rest

/-- The placeholder test of line 94: the compiled-in API key contains the
marker substring. -/
def isPlaceholder (s : String) : Bool := containsRun "COLAR_".data s.data

/-- The compiled-in configuration is used when its API key is truthy and
is not the placeholder (line 94). -/
def validCompiled (c : DatabaseConfig) : Bool :=
  c.apiKey != "" && !(isPlaceholder c.apiKey)

/-- Outcome of the initializeApp connection attempt of lines 109 to 123. -/
inductive ConnectOutcome
  | ok
  | dupApp
  | err
deriving DecidableEq, Repr

/-- The environment an init call runs in: whether a backend app instance
already exists, whether recovering it succeeds, the compiled-in
configuration (its value lives in the configuration module, outside this
sources of this file, and is therefore a parameter), the stored configuration
entry of the fallback store (outer none: entry absent; inner none: entry
present but unparsable), and the outcome of a connection attempt. -/
structure InitEnv where
  appsExist : Bool
  reuseOk : Bool
  compiled : DatabaseConfig
  stored : Option (Option DatabaseConfig)
  connect : ConnectOutcome
deriving DecidableEq, Repr

/-- What an init call reports and leaves behind: the returned boolean, the
final state of the backend handle, and the configuration a connection
attempt was made with, when one was made. -/
structure InitResult where
  success : Bool
  dbSet : Bool
  attempted : Option DatabaseConfig
deriving DecidableEq, Repr

/-- The configuration resolution of init, steps 1 and 2 (lines 92 to 106):
the compiled-in configuration when valid, else the explicit argument, else
the parsable stored configuration. -/
def resolveConfig (env : InitEnv) (arg : Option DatabaseConfig) :
    Option DatabaseConfig :=
  if validCompiled env.compiled then some env.compiled
  else
    match arg with
    | some c => some c
    | none =>
      match env.stored with
      | some (some c) => some c
      | _ => none

/-- The connection attempt of lines 108 to 124: made only when the API key
of the resolved configuration is truthy; success and the duplicate-app
recovery both set the handle, any other error reports failure and leaves
it unset. -/
def connectWith (c : DatabaseConfig) (outcome : ConnectOutcome) : InitResult :=
  if c.apiKey != "" then
    match outcome with
    | .ok => { success := true, dbSet := true, attempted := some c }
    | .dupApp => { success := true, dbSet := true, attempted := some c }
    | .err => { success := false, dbSet := false, attempted := some c }
  else { success := false, dbSet := false, attempted := none }

/-- init (lines 78 to 127).  Step 0 reuses an existing instance; failing
that, the configuration is resolved and a connection attempted with it;
with nothing usable the call reports fallback mode. -/
def init (env : InitEnv) (arg : Option DatabaseConfig) : InitResult :=
  if env.appsExist && env.reuseOk then
    { success := true, dbSet := true, attempted := none }
  else
    match resolveConfig env arg with
    | some c => connectWith c env.connect
    | none => { success := false, dbSet := false, attempted := none }

/- ------------------------------------------------------------------ -/
/- Helper lemmas about updateFirst and the association-list stores.    -/
/- ------------------------------------------------------------------ -/

theorem length_updateFirst {α : Type} (p : α → Bool) (f : α → α) (l : List α) :
    (updateFirst p f l).length = l.length := by
  induction l with
  | nil => rfl
  | cons a rest ih =>
    simp only [updateFirst]
    split <;> simp [ih]

theorem updateFirst_eq_self {α : Type} {p : α → Bool} {f : α → α} {l : List α}
    (h : ∀ a ∈ l, p a = false) : updateFirst p f l = l := by
  induction l with
  | nil => rfl
  | cons a rest ih =>
    have ha := h a (by simp)
    simp [updateFirst, ha, ih (fun b hb => h b (by simp [hb]))]

theorem getElem?_updateFirst_of_ne {α : Type} {p : α → Bool} {f : α → α}
    {l : List α} {i : Nat} {a : α} (hl : l[i]? = some a) (ha : p a = false) :
    (updateFirst p f l)[i]? = some a := by
  induction l generalizing i with
  | nil => simp at hl
  | cons x rest ih =>
    match i with
    | 0 =>
      simp only [List.getElem?_cons_zero, Option.some.injEq] at hl
      subst hl
      simp [updateFirst, ha]
    | Nat.succ j =>
      simp only [List.getElem?_cons_succ] at hl
      simp only [updateFirst]
      split
      · simpa using hl
      · simpa using ih hl

theorem getElem?_updateFirst_of_unique {α : Type} {p : α → Bool} {f : α → α}
    {l : List α} {i : Nat} {a : α} (hl : l[i]? = some a) (ha : p a = true)
    (huniq : ∀ j b, l[j]? = some b → p b = true → j = i) :
    (updateFirst p f l)[i]? = some (f a) := by
  induction l generalizing i with
  | nil => simp at hl
  | cons x rest ih =>
    by_cases hx : p x = true
    · have h0 : (0 : Nat) = i := huniq 0 x (by simp) hx
      subst h0
      simp only [List.getElem?_cons_zero, Option.some.injEq] at hl
      subst hl
      simp [updateFirst, hx]
    · match i with
      | 0 =>
        simp only [List.getElem?_cons_zero, Option.some.injEq] at hl
        subst hl
        exact absurd ha hx
      | Nat.succ j =>
        simp only [List.getElem?_cons_succ] at hl
        have huniq2 : ∀ j2 b, rest[j2]? = some b → p b = true → j2 = j := by
          intro j2 b hj2 hb
          have := huniq (j2 + 1) b (by simpa using hj2) hb
          omega
        have := ih hl huniq2
        rw [updateFirst, if_neg hx]
        simpa using this

theorem mem_updateFirst {α : Type} {p : α → Bool} {f : α → α} {l : List α} {b : α}
    (hb : b ∈ updateFirst p f l) : b ∈ l ∨ ∃ a, a ∈ l ∧ b = f a := by
  induction l with
  | nil => simp [updateFirst] at hb
  | cons x rest ih =>
    simp only [updateFirst] at hb
    split at hb
    · rcases List.mem_cons.mp hb with h | h
      · exact Or.inr ⟨x, by simp, h⟩
      · exact Or.inl (by simp [h])
    · rcases List.mem_cons.mp hb with h | h
      · exact Or.inl (by simp [h])
      · rcases ih h with h2 | ⟨a, ha, rfl⟩
        · exact Or.inl (by simp [h2])
        · exact Or.inr ⟨a, by simp [ha], rfl⟩

theorem map_updateFirst {α β : Type} {p : α → Bool} {f : α → α} (g : α → β)
    (hg : ∀ a, g (f a) = g a) (l : List α) :
    (updateFirst p f l).map g = l.map g := by
  induction l with
  | nil => rfl
  | cons x rest ih =>
    simp only [updateFirst]
    split
    · simp [hg]
    · simp [ih]

theorem find?_updateFirst {α : Type} (p : α → Bool) (f : α → α)
    (hpf : ∀ a, p (f a) = p a) (l : List α) :
    (updateFirst p f l).find? p = (l.find? p).map f := by
  induction l with
  | nil => rfl
  | cons x rest ih =>
    by_cases hx : p x = true
    · rw [updateFirst, if_pos hx, List.find?_cons_of_pos _ ((hpf x).trans hx),
        List.find?_cons_of_pos _ hx, Option.map_some']
    · have hx2 : p x = false := by simpa using hx
      rw [updateFirst, if_neg (by simp [hx2]), List.find?_cons_of_neg _ (by simp [hx2]),
        List.find?_cons_of_neg _ (by simp [hx2]), ih]

theorem updateFirst_congr {α : Type} {p q : α → Bool} {f : α → α} {l : List α}
    (h : ∀ a ∈ l, p a = q a) : updateFirst p f l = updateFirst q f l := by
  induction l with
  | nil => rfl
  | cons x rest ih =>
    have hx := h x (by simp)
    simp only [updateFirst, hx]
    split
    · rfl
    · rw [ih (fun b hb => h b (by simp [hb]))]

theorem any_eq_of_congr {α : Type} {p q : α → Bool} {l : List α}
    (h : ∀ a ∈ l, p a = q a) : l.any p = l.any q := by
  induction l with
  | nil => rfl
  | cons x rest ih =>
    simp only [List.any_cons, h x (by simp), ih (fun b hb => h b (by simp [hb]))]

theorem memGet_cons (e : String × String) (l : List (String × String)) (key : String) :
    memGet (e :: l) key = if e.1 == key then some e.2 else memGet l key := by
  by_cases he : (e.1 == key) = true
  · simp [memGet, List.find?_cons_of_pos _ he, he]
  · simp [memGet, List.find?_cons_of_neg _ he, he]

theorem memGet_memSet_self (mem : List (String × String)) (key value : String) :
    memGet (memSet mem key value) key = some value := by
  induction mem with
  | nil => simp [memSet, memGet_cons]
  | cons e rest ih =>
    by_cases he : (e.1 == key) = true
    · rw [memSet, if_pos he]
      simp [memGet_cons]
    · have he2 : (e.1 == key) = false := by simpa using he
      rw [memSet, if_neg (by simp [he2])]
      rw [memGet_cons, if_neg (by simp [he2]), ih]

theorem tblDel_of_not_mem {l : List (String × TableState)} {key : String}
    (h : key ∉ l.map Prod.fst) : tblDel l key = l := by
  induction l with
  | nil => rfl
  | cons e rest ih =>
    simp only [List.map_cons, List.mem_cons, not_or] at h
    have hne : ¬e.1 = key := fun hh => h.1 hh.symm
    rw [tblDel, if_neg (by simp [hne]), ih h.2]

theorem not_mem_tblDel {l : List (String × TableState)} {key : String}
    (h : (l.map Prod.fst).Nodup) : key ∉ (tblDel l key).map Prod.fst := by
  induction l with
  | nil => simp [tblDel]
  | cons e rest ih =>
    simp only [List.map_cons, List.nodup_cons] at h
    by_cases he : e.1 = key
    · rw [tblDel, if_pos (by simp [he])]
      subst he
      exact h.1
    · rw [tblDel, if_neg (by simp [he])]
      simp only [List.map_cons, List.mem_cons, not_or]
      exact ⟨fun hh => he hh.symm, ih h.2⟩

theorem tblDel_tblDel {l : List (String × TableState)} {key : String}
    (h : (l.map Prod.fst).Nodup) : tblDel (tblDel l key) key = tblDel l key :=
  tblDel_of_not_mem (not_mem_tblDel h)

theorem nodup_map_getElem?_eq {α β : Type} {l : List α} {g : α → β}
    (h : (l.map g).Nodup) {i j : Nat} {a b : α}
    (hi : l[i]? = some a) (hj : l[j]? = some b) (hg : g a = g b) : i = j := by
  have hi2 : (l.map g)[i]? = some (g a) := by simp [List.getElem?_map, hi]
  have hj2 : (l.map g)[j]? = some (g b) := by simp [List.getElem?_map, hj]
  have hlen : i < l.length := by
    by_contra hcon
    rw [List.getElem?_eq_none (Nat.le_of_not_lt hcon)] at hi
    exact Option.noConfusion hi
  exact List.getElem?_inj (by simpa using hlen) h (hi2.trans (hg ▸ hj2.symm))

/-- The total quantity the loops add or remove for one product identifier:
the sum of the quantities of the line items naming it. -/
def sumQty (its : List OrderItem) (pid : String) : ℚ :=
  ((its.filter (fun it => it.productId == pid)).map (fun it => it.quantity)).sum

theorem map_id_applyDecrement (ps : List Product) (it : CartItem) :
    (applyDecrement ps it).map (fun p => p.id) = ps.map (fun p => p.id) := by
  rw [applyDecrement]
  refine map_updateFirst _ (fun a => ?_) ps
  rfl

theorem map_id_applyRestore (ps : List Product) (it : OrderItem) :
    (applyRestore ps it).map (fun p => p.id) = ps.map (fun p => p.id) := by
  rw [applyRestore]
  refine map_updateFirst _ (fun a => ?_) ps
  rfl

theorem length_foldl_applyDecrement (items : List CartItem) (ps : List Product) :
    (items.foldl applyDecrement ps).length = ps.length := by
  induction items generalizing ps with
  | nil => rfl
  | cons it rest ih =>
    rw [List.foldl_cons, ih, applyDecrement, length_updateFirst]

theorem foldl_applyDecrement_frame {ps : List Product} {items : List CartItem}
    {i : Nat} {p : Product} (hp : ps[i]? = some p)
    (hnot : ∀ it ∈ items, ¬ it.product.id = p.id) :
    (items.foldl applyDecrement ps)[i]? = some p := by
  induction items generalizing ps with
  | nil => simpa using hp
  | cons it rest ih =>
    rw [List.foldl_cons]
    have h1 : ¬ p.id = it.product.id := fun hh => hnot it (by simp) hh.symm
    have hp2 : (applyDecrement ps it)[i]? = some p :=
      getElem?_updateFirst_of_ne hp (by simp [h1])
    exact ih hp2 (fun x hx => hnot x (by simp [hx]))

theorem getElem?_foldl_applyDecrement {ps : List Product} {items : List CartItem}
    {i : Nat} {p : Product} {it : CartItem}
    (hps : (ps.map (fun p => p.id)).Nodup)
    (hits : (items.map (fun it => it.product.id)).Nodup)
    (hp : ps[i]? = some p)
    (hf : items.find? (fun it2 => it2.product.id == p.id) = some it) :
    (items.foldl applyDecrement ps)[i]? =
      some { p with stock := jsMax 0 (p.stock - it.quantity) } := by
  induction items generalizing ps p with
  | nil => simp at hf
  | cons it0 rest ih =>
    rw [List.map_cons, List.nodup_cons] at hits
    obtain ⟨hhead, htail⟩ := hits
    rw [List.foldl_cons]
    have hidmap : ((applyDecrement ps it0).map (fun p => p.id)) = ps.map (fun p => p.id) :=
      map_id_applyDecrement ps it0
    by_cases hmatch : p.id = it0.product.id
    · have hit : it = it0 := by
        rw [List.find?_cons_of_pos _ (by simp [hmatch])] at hf
        exact (Option.some.inj hf).symm
      subst hit
      have hp2 : (applyDecrement ps it)[i]? =
          some { p with stock := jsMax 0 (p.stock - it.quantity) } := by
        apply getElem?_updateFirst_of_unique hp (by simp [hmatch])
        intro j b hj hb
        have hb2 : b.id = it.product.id := by simpa using hb
        exact nodup_map_getElem?_eq hps hj hp (hb2.trans hmatch.symm)
      apply foldl_applyDecrement_frame hp2
      intro x hx hid
      apply hhead
      have hid2 : x.product.id = it.product.id := by simpa [hmatch] using hid
      rw [← hid2]
      exact List.mem_map_of_mem (fun it2 => it2.product.id) hx
    · have hne : ¬ it0.product.id = p.id := fun hh => hmatch hh.symm
      have hf2 : rest.find? (fun it2 => it2.product.id == p.id) = some it := by
        rw [List.find?_cons_of_neg _ (by simp [hne])] at hf
        exact hf
      have hp2 : (applyDecrement ps it0)[i]? = some p :=
        getElem?_updateFirst_of_ne hp (by simp [hmatch])
      exact ih (by rw [hidmap]; exact hps) htail hp2 hf2

theorem stock_nonneg_foldl_applyDecrement {ps : List Product} {items : List CartItem}
    (h : ∀ p ∈ ps, 0 ≤ p.stock) : ∀ p ∈ items.foldl applyDecrement ps, 0 ≤ p.stock := by
  induction items generalizing ps with
  | nil => simpa using h
  | cons it rest ih =>
    rw [List.foldl_cons]
    apply ih
    intro p hp
    simp only [applyDecrement] at hp
    rcases mem_updateFirst hp with h1 | ⟨a, _, rfl⟩
    · exact h p h1
    · show 0 ≤ jsMax 0 (a.stock - it.quantity)
      rw [jsMax]
      split
      · exact le_of_lt (by assumption)
      · exact le_refl 0

theorem length_foldl_applyRestore (its : List OrderItem) (ps : List Product) :
    (its.foldl applyRestore ps).length = ps.length := by
  induction its generalizing ps with
  | nil => rfl
  | cons it rest ih =>
    rw [List.foldl_cons, ih, applyRestore, length_updateFirst]

theorem getElem?_foldl_applyRestore {ps : List Product} {its : List OrderItem}
    {i : Nat} {p : Product}
    (hps : (ps.map (fun p => p.id)).Nodup)
    (hp : ps[i]? = some p) :
    (its.foldl applyRestore ps)[i]? =
      some { p with stock := p.stock + sumQty its p.id } := by
  induction its generalizing ps p with
  | nil => simpa [sumQty] using hp
  | cons it rest ih =>
    rw [List.foldl_cons]
    have hidmap : ((applyRestore ps it).map (fun p => p.id)) = ps.map (fun p => p.id) :=
      map_id_applyRestore ps it
    by_cases hmatch : p.id = it.productId
    · have hp2 : (applyRestore ps it)[i]? =
          some { p with stock := p.stock + it.quantity } := by
        apply getElem?_updateFirst_of_unique hp (by simp [hmatch])
        intro j b hj hb
        have hb2 : b.id = it.productId := by simpa using hb
        exact nodup_map_getElem?_eq hps hj hp (hb2.trans hmatch.symm)
      have hs : sumQty (it :: rest) p.id = it.quantity + sumQty rest p.id := by
        simp [sumQty, List.filter_cons, hmatch]
      refine (ih (by rw [hidmap]; exact hps) hp2).trans ?_
      show some ({ p with stock := p.stock + it.quantity + sumQty rest p.id } : Product)
          = some { p with stock := p.stock + sumQty (it :: rest) p.id }
      rw [hs, ← add_assoc]
    · have hne : ¬ it.productId = p.id := fun hh => hmatch hh.symm
      have hp2 : (applyRestore ps it)[i]? = some p :=
        getElem?_updateFirst_of_ne hp (by simp [hmatch])
      refine (ih (by rw [hidmap]; exact hps) hp2).trans ?_
      have hs : sumQty (it :: rest) p.id = sumQty rest p.id := by
        simp [sumQty, List.filter_cons, hne]
      rw [hs]

theorem foldl_price_total (items : List CartItem) (c : ℚ) :
    items.foldl (fun acc curr => acc + curr.product.price * curr.quantity) c =
      c + (items.map (fun curr => curr.product.price * curr.quantity)).sum := by
  induction items generalizing c with
  | nil => simp
  | cons it rest ih =>
    rw [List.foldl_cons, ih, List.map_cons, List.sum_cons]
    ring

theorem markPaid_id (upd : List String) (o : CloudOrder) : (markPaid upd o).id = o.id := by
  rw [markPaid]
  split <;> rfl

theorem markPaid_tableId (upd : List String) (o : CloudOrder) :
    (markPaid upd o).tableId = o.tableId := by
  rw [markPaid]
  split <;> rfl

theorem mem_collectUpdates {l : List CloudOrder} {seen : List String} {x : String} :
    x ∈ collectUpdates l seen ↔
      x ∉ seen ∧ ∃ o, l.find? (fun o => o.id == x) = some o ∧
        o.status ≠ OrderStatus.CANCELED ∧ o.status ≠ OrderStatus.PAID := by
  induction l generalizing seen with
  | nil => simp [collectUpdates]
  | cons o rest ih =>
    by_cases hseen : o.id ∈ seen
    · rw [collectUpdates, if_pos hseen]
      by_cases hx : o.id = x
      · subst hx
        constructor
        · intro hmem
          exact ((ih.mp hmem).1 hseen).elim
        · rintro ⟨hns, -⟩
          exact (hns hseen).elim
      · rw [ih, List.find?_cons_of_neg _ (by simp [hx])]
    · rw [collectUpdates, if_neg hseen]
      by_cases hterm : o.status ≠ OrderStatus.CANCELED ∧ o.status ≠ OrderStatus.PAID
      · rw [if_pos hterm]
        by_cases hx : o.id = x
        · subst hx
          constructor
          · intro _
            exact ⟨hseen, o, by rw [List.find?_cons_of_pos _ (by simp)], hterm⟩
          · intro _
            exact List.mem_cons_self _ _
        · constructor
          · intro hmem
            rcases List.mem_cons.mp hmem with heq | hmem2
            · exact absurd heq.symm hx
            · obtain ⟨hns, o2, hfind, ht⟩ := ih.mp hmem2
              have hns2 : x ∉ seen := fun hh => hns (List.mem_cons_of_mem _ hh)
              refine ⟨hns2, o2, ?_, ht⟩
              rw [List.find?_cons_of_neg _ (by simp [hx])]
              exact hfind
          · rintro ⟨hns, o2, hfind, ht⟩
            rw [List.find?_cons_of_neg _ (by simp [hx])] at hfind
            apply List.mem_cons_of_mem
            apply ih.mpr
            refine ⟨?_, o2, hfind, ht⟩
            intro hh
            rcases List.mem_cons.mp hh with heq | hmem2
            · exact hx heq.symm
            · exact hns hmem2
      · rw [if_neg hterm]
        by_cases hx : o.id = x
        · subst hx
          rw [ih]
          constructor
          · rintro ⟨hns, -⟩
            exact absurd (List.mem_cons_self _ _) hns
          · rintro ⟨hns, o2, hfind, ht⟩
            rw [List.find?_cons_of_pos _ (by simp)] at hfind
            cases Option.some.inj hfind
            exact absurd ht hterm
        · rw [ih, List.find?_cons_of_neg _ (by simp [hx])]
          constructor
          · rintro ⟨hns, rest2⟩
            exact ⟨fun hh => hns (List.mem_cons_of_mem _ hh), rest2⟩
          · rintro ⟨hns, rest2⟩
            refine ⟨?_, rest2⟩
            intro hh
            rcases List.mem_cons.mp hh with heq | hmem2
            · exact hx heq.symm
            · exact hns hmem2

theorem collectUpdates_after (m : List CloudOrder) :
    collectUpdates (m.map (markPaid (collectUpdates m []))) [] = [] := by
  rw [List.eq_nil_iff_forall_not_mem]
  intro x hx
  rw [mem_collectUpdates] at hx
  obtain ⟨-, o2, hfind, ht⟩ := hx
  rw [List.find?_map] at hfind
  have hcomp : ((fun o => o.id == x) ∘ markPaid (collectUpdates m [])) =
      (fun o => o.id == x) := by
    funext o
    simp [Function.comp, markPaid_id]
  rw [hcomp] at hfind
  obtain ⟨o1, h1, h2⟩ := Option.map_eq_some'.mp hfind
  have ho1x : o1.id = x := by simpa using List.find?_some h1
  by_cases hU : x ∈ collectUpdates m []
  · have hpaid : o2.status = OrderStatus.PAID := by
      rw [← h2, markPaid, if_pos (by rw [ho1x]; exact hU)]
    exact ht.2 hpaid
  · have ho2 : o2 = o1 := by
      rw [← h2, markPaid, if_neg (by rw [ho1x]; exact hU)]
    apply hU
    rw [mem_collectUpdates]
    exact ⟨by simp, o1, h1, ho2 ▸ ht⟩

theorem payOff_payOff (t : Int) (o : Order) : payOff t (payOff t o) = payOff t o := by
  by_cases h : (looseEqInt o.tableId t && o.status != OrderStatus.CANCELED) = true
  · have h1 : looseEqInt o.tableId t = true := by
      simp only [Bool.and_eq_true] at h
      exact h.1
    have hinner : payOff t o = { o with status := OrderStatus.PAID } := by
      rw [payOff, if_pos h]
    rw [hinner, payOff, if_pos (by simp [h1])]
  · have hinner : payOff t o = o := by
      rw [payOff, if_neg h]
    rw [hinner]
    exact hinner

theorem finalizeLocal_idem (s : Store) (t : Int)
    (h : ((getTables s).map Prod.fst).Nodup) :
    finalizeTableLocal (finalizeTableLocal s t) t = finalizeTableLocal s t := by
  simp only [finalizeTableLocal, getTables, getOrders, Option.getD_some]
  rw [List.map_map,
    tblDel_tblDel (show (((s.tables.getD []).map Prod.fst)).Nodup from h),
    show payOff t ∘ payOff t = payOff t from funext (payOff_payOff t)]

theorem finalizeCloud_idem (s : CloudState) (t : Int)
    (h : (s.tables.map Prod.fst).Nodup) :
    finalizeTableCloud (finalizeTableCloud s t) t = finalizeTableCloud s t := by
  have hmatched : ∀ (upd : List String) (tb : List (String × TableState)),
      matchedDocs { orders := s.orders.map (markPaid upd), tables := tb } t =
        (matchedDocs s t).map (markPaid upd) := by
    intro upd tb
    simp only [matchedDocs]
    rw [List.filter_map, List.filter_map,
      show ((fun o => o.tableId == TId.num t) ∘ markPaid upd) =
          (fun o => o.tableId == TId.num t) from
        funext fun o => by simp [Function.comp, markPaid_tableId],
      show ((fun o => o.tableId == TId.str (toString t)) ∘ markPaid upd) =
          (fun o => o.tableId == TId.str (toString t)) from
        funext fun o => by simp [Function.comp, markPaid_tableId],
      ← List.map_append]
  have hupd : collectUpdates (matchedDocs (finalizeTableCloud s t) t) [] = [] := by
    have hstep : finalizeTableCloud s t =
        { orders := s.orders.map (markPaid (collectUpdates (matchedDocs s t) [])),
          tables := tblDel s.tables (toString t) } := rfl
    rw [hstep, hmatched]
    exact collectUpdates_after _
  have hfin : finalizeTableCloud (finalizeTableCloud s t) t =
      { orders := (finalizeTableCloud s t).orders.map
          (markPaid (collectUpdates (matchedDocs (finalizeTableCloud s t) t) [])),
        tables := tblDel (finalizeTableCloud s t).tables (toString t) } := rfl
  rw [hfin, hupd,
    show markPaid ([] : List String) = id from
      funext fun o => by rw [markPaid, if_neg (by simp)]; rfl,
    List.map_id]
  have htb : (finalizeTableCloud s t).tables = tblDel s.tables (toString t) := rfl
  rw [htb, tblDel_tblDel h, ← htb]

/- ------------------------------------------------------------------ -/
/- Claim theorems.                                                     -/
/- ------------------------------------------------------------------ -/

/-- C8: no exception ever escapes the fallback key-value store: for every
key and value, getItem, setItem and removeItem return normally even when
every access to the persistent medium throws, degrading silently to
memory-only storage. -/
theorem c8_no_exception_escapes (mem : List (String × String)) (key value : String)
    (r : MediumRead) (w w2 : MediumWrite) :
    (safeGetItem mem key r).isOk = true ∧
    (safeSetItem mem key value w).isOk = true ∧
    (safeRemoveItem mem key w2).isOk = true := by
  refine ⟨?_, ?_, ?_⟩
  · cases r <;> rfl
  · cases w <;> rfl
  · cases w2 <;> rfl

/-- C6 counterexample: after setItem of the empty string value under a key
(with the medium write failing), a getItem on which the medium reports the
key absent returns null rather than the stored empty string, because the
shadow lookup is written with a falsy-or fallback; the same happens when
the medium throws.  So the claim fails for the empty string value. -/
theorem c6_counterexample :
    safeSetItem [] "beach_app_products" "" MediumWrite.throws =
      Except.ok [("beach_app_products", "")] ∧
    safeGetItem [("beach_app_products", "")] "beach_app_products"
      (MediumRead.got none) = Except.ok none ∧
    safeGetItem [("beach_app_products", "")] "beach_app_products"
      MediumRead.throws = Except.ok none ∧
    (Except.ok none : Except String (Option String)) ≠ Except.ok (some "") := by
  refine ⟨rfl, rfl, rfl, fun h => Option.noConfusion (Except.ok.inj h)⟩

/-- C6 amended: for every key and every non-empty value, after a
fallback-store setItem whose write to the persistent medium fails (or after
the medium later reports the key absent), getItem still returns the value
last passed to setItem for that key, because every set writes the in-memory
shadow first and get falls back to it.  (For the empty string value the get
returns null instead, since the shadow fallback treats the empty string as
absent.) -/
theorem c6_amended_memory_shadow (mem : List (String × String)) (key value : String)
    (w : MediumWrite) (hv : value ≠ "") :
    safeSetItem mem key value w = Except.ok (memSet mem key value) ∧
    safeGetItem (memSet mem key value) key MediumRead.throws =
      Except.ok (some value) ∧
    safeGetItem (memSet mem key value) key (MediumRead.got none) =
      Except.ok (some value) := by
  have hget := memGet_memSet_self mem key value
  refine ⟨?_, ?_, ?_⟩
  · rw [safeSetItem]
    cases w <;> rfl
  · simp [safeGetItem, rawGetItem, hget, jsStringOrNull, hv]
  · simp [safeGetItem, rawGetItem, hget, jsStringOrNull, hv]

theorem c6_amended_memory_shadow_witness :
    ("ok" ≠ "") ∧
    safeGetItem (memSet [] "beach_app_orders" "ok") "beach_app_orders"
      MediumRead.throws = Except.ok (some "ok") :=
  ⟨by decide,
    (c6_amended_memory_shadow [] "beach_app_orders" "ok" MediumWrite.throws
      (by decide)).2.1⟩

/-- C9: in fallback mode, the first subscribeProducts delivery when the
products entry of the fallback store has never been initialized writes the
canonical four-product seed catalog to the store and delivers exactly that
catalog as the first callback value; when the entry already exists, the
stored collection is delivered instead and no seeding occurs. -/
theorem c9_first_run_seeding (s : Store) :
    (s.products = none →
      subscribeProductsFirst s =
        (INITIAL_PRODUCTS, { s with products := some INITIAL_PRODUCTS })) ∧
    (∀ ps, s.products = some ps → subscribeProductsFirst s = (ps, s)) ∧
    INITIAL_PRODUCTS.map (fun p => p.name) =
      ["Cerveja Gelada 600ml", "Água de Coco", "Isca de Peixe", "Batata Frita"] ∧
    INITIAL_PRODUCTS.length = 4 := by
  refine ⟨?_, ?_, rfl, rfl⟩
  · intro h
    simp [subscribeProductsFirst, h]
  · intro ps h
    simp [subscribeProductsFirst, h]

theorem c9_first_run_seeding_witness :
    subscribeProductsFirst { products := none, orders := none, tables := none } =
      (INITIAL_PRODUCTS,
        { products := some INITIAL_PRODUCTS, orders := none, tables := none }) :=
  (c9_first_run_seeding { products := none, orders := none, tables := none }).1 rfl

/-- C5: finalizeTable is idempotent: for every table identifier and every
starting store state, calling finalizeTable twice in a row yields the same
table map and the same final order statuses as calling it once (in both
the fallback branch and the cloud branch with its identifier
deduplication), the second call finding no matching open order left.  The
key lists of the table maps are assumed duplicate-free, as serialised
JavaScript object keys are. -/
theorem c5_finalizeTable_idempotent (s : Store) (cs : CloudState) (t : Int)
    (h1 : ((getTables s).map Prod.fst).Nodup)
    (h2 : (cs.tables.map Prod.fst).Nodup) :
    finalizeTableLocal (finalizeTableLocal s t) t = finalizeTableLocal s t ∧
    finalizeTableCloud (finalizeTableCloud cs t) t = finalizeTableCloud cs t :=
  ⟨finalizeLocal_idem s t h1, finalizeCloud_idem cs t h2⟩

def c5Order1 : Order :=
  { id := "1001", tableId := TId.num 5, status := OrderStatus.PENDING,
    timestamp := 1, items := [], total := 10, observation := "" }

def c5Order2 : Order :=
  { id := "1002", tableId := TId.str "5", status := OrderStatus.PENDING,
    timestamp := 2, items := [], total := 20, observation := "" }

def c5Store : Store :=
  { products := none,
    orders := some [c5Order1, c5Order2],
    tables := some [("5",
      { status := TableStatus.CLOSING_REQUESTED, paymentMethod := "card" })] }

def c5Cloud : CloudState :=
  { orders := [{ id := "1001", tableId := TId.num 5, status := OrderStatus.PENDING },
      { id := "1002", tableId := TId.str "5", status := OrderStatus.PENDING }],
    tables := [("5",
      { status := TableStatus.CLOSING_REQUESTED, paymentMethod := "card" })] }

theorem c5_finalizeTable_idempotent_witness :
    finalizeTableLocal (finalizeTableLocal c5Store 5) 5 = finalizeTableLocal c5Store 5 ∧
    finalizeTableCloud (finalizeTableCloud c5Cloud 5) 5 = finalizeTableCloud c5Cloud 5 :=
  c5_finalizeTable_idempotent c5Store c5Cloud 5 (by decide) (by decide)

/-- C3: for every createOrder call, the total of the created order equals
the sum over all supplied items of the product price times the ordered
quantity, captured once at creation from the supplied products, the line
items capture those prices, and no later saveProduct call (the operation
that changes catalog prices) alters the stored order collection. -/
theorem c3_order_total (s : Store) (tableId : Int) (items : List CartItem)
    (observation : Option String) (now : Int) :
    (∃ o, getOrders (createOrderLocal s tableId items observation now) =
        getOrders s ++ [o] ∧
      o.total = (items.map (fun it => it.product.price * it.quantity)).sum ∧
      o.items.map (fun it => it.price) = items.map (fun it => it.product.price)) ∧
    (∀ (s2 : Store) (p : Product) (n : Int),
      getOrders (saveProductLocal s2 p n) = getOrders s2) := by
  constructor
  · refine ⟨mkOrderData tableId items observation now, ?_, ?_, ?_⟩
    · simp [createOrderLocal, getOrders]
    · show items.foldl (fun acc curr => acc + curr.product.price * curr.quantity) 0 = _
      rw [foldl_price_total, zero_add]
    · show (items.map _).map _ = _
      rw [List.map_map]
      rfl
  · intro s2 p n
    rfl

/-- C10: in fallback mode, createOrder changes the stock only of products
whose identifier matches some line item of the new order: every other
product record in the catalog is unchanged field for field (same position,
same record), one loop step for a line item whose product identifier is
absent from the stored catalog changes nothing at all, and the order is
appended to the orders collection regardless. -/
theorem c10_createOrder_frame (s : Store) (tableId : Int) (items : List CartItem)
    (observation : Option String) (now : Int) :
    (∀ (i : Nat) (p : Product), (getProducts s)[i]? = some p →
      (∀ it ∈ items, ¬ it.product.id = p.id) →
      (getProducts (createOrderLocal s tableId items observation now))[i]? = some p) ∧
    (∀ (ps : List Product) (it : CartItem),
      (∀ q ∈ ps, ¬ q.id = it.product.id) → applyDecrement ps it = ps) ∧
    getOrders (createOrderLocal s tableId items observation now) =
      getOrders s ++ [mkOrderData tableId items observation now] := by
  refine ⟨?_, ?_, ?_⟩
  · intro i p hp hnot
    have hprod : getProducts (createOrderLocal s tableId items observation now) =
        items.foldl applyDecrement (getProducts s) := by
      simp [createOrderLocal, getProducts]
    rw [hprod]
    exact foldl_applyDecrement_frame hp hnot
  · intro ps it hnone
    rw [applyDecrement]
    exact updateFirst_eq_self (fun q hq => by simp [hnone q hq])
  · simp [createOrderLocal, getOrders]

def c10ProdA : Product :=
  { id := "prod_a", name := "Cerveja Gelada 600ml", description := "gelada",
    price := 15, category := Category.BEBIDAS, stock := 5, imageUrl := "u1" }

def c10ProdB : Product :=
  { id := "prod_b", name := "Batata Frita", description := "porcao",
    price := 25, category := Category.TIRA_GOSTO, stock := 7, imageUrl := "u2" }

def c10Store : Store :=
  { products := some [c10ProdA, c10ProdB], orders := none, tables := none }

def c10Items : List CartItem := [{ product := c10ProdA, quantity := 2 }]

theorem c10_createOrder_frame_witness :
    (getProducts (createOrderLocal c10Store 3 c10Items none 99))[1]? = some c10ProdB :=
  (c10_createOrder_frame c10Store 3 c10Items none 99).1 1 c10ProdB (by decide)
    (by decide)

/-- C2: for every createOrder call in fallback mode on a catalog whose
stocks respect the non-negativity invariant (and with duplicate-free
product and line identifiers), after the call no product in the stored
catalog has negative stock, even when a requested quantity exceeds the
available stock; the new stock of each referenced product is the old stock
minus the ordered quantity, floored at zero. -/
theorem c2_stock_floored_at_zero (s : Store) (tableId : Int) (items : List CartItem)
    (observation : Option String) (now : Int)
    (hpos : ∀ p ∈ getProducts s, 0 ≤ p.stock)
    (hids : ((getProducts s).map (fun p => p.id)).Nodup)
    (hitems : (items.map (fun it => it.product.id)).Nodup) :
    (∀ p ∈ getProducts (createOrderLocal s tableId items observation now),
      0 ≤ p.stock) ∧
    (∀ (i : Nat) (p : Product) (it : CartItem),
      (getProducts s)[i]? = some p →
      items.find? (fun it2 => it2.product.id == p.id) = some it →
      (getProducts (createOrderLocal s tableId items observation now))[i]? =
        some { p with stock := jsMax 0 (p.stock - it.quantity) }) := by
  have hprod : getProducts (createOrderLocal s tableId items observation now) =
      items.foldl applyDecrement (getProducts s) := by
    simp [createOrderLocal, getProducts]
  constructor
  · rw [hprod]
    exact stock_nonneg_foldl_applyDecrement hpos
  · intro i p it hp hf
    rw [hprod]
    exact getElem?_foldl_applyDecrement hids hitems hp hf

def c2Prod : Product :=
  { id := "prod_a", name := "Cerveja Gelada 600ml", description := "gelada",
    price := 15, category := Category.BEBIDAS, stock := 5, imageUrl := "u1" }

def c2Store : Store :=
  { products := some [c2Prod], orders := none, tables := none }

def c2Item : CartItem := { product := c2Prod, quantity := 10 }

theorem c2_stock_floored_at_zero_witness :
    (∀ p ∈ getProducts (createOrderLocal c2Store 1 [c2Item] none 7), 0 ≤ p.stock) ∧
    (getProducts (createOrderLocal c2Store 1 [c2Item] none 7))[0]? =
      some { c2Prod with stock := 0 } := by
  have h := c2_stock_floored_at_zero c2Store 1 [c2Item] none 7
    (by intro p hp; rw [c2Store] at hp; simp [getProducts] at hp; rw [hp, c2Prod]; norm_num)
    (by decide) (by decide)
  refine ⟨h.1, (h.2 0 c2Prod c2Item (by decide) (by decide)).trans ?_⟩
  have hz : jsMax 0 (c2Prod.stock - c2Item.quantity) = 0 := by
    rw [jsMax, if_neg]
    rw [c2Prod, c2Item]
    norm_num
  rw [hz]

/-- C4: in fallback mode, updating an order to CANCELED when its current
status is not CANCELED adds the quantity of each line item back to the
stock of the corresponding product exactly once (the new stock of every product
is its old stock plus the summed quantities of the line items naming it,
under the duplicate-free product identifier invariant); calling the
operation again on the now-CANCELED order changes the stock of no product. -/
theorem c4_cancel_restores_stock_once (s : Store) (orderId : String) (o : Order)
    (hfind : (getOrders s).find? (fun q => q.id == orderId) = some o)
    (hnc : o.status ≠ OrderStatus.CANCELED)
    (hids : ((getProducts s).map (fun p => p.id)).Nodup) :
    (∀ (i : Nat) (p : Product), (getProducts s)[i]? = some p →
      (getProducts (updateOrderStatusLocal s orderId OrderStatus.CANCELED))[i]? =
        some { p with stock := p.stock + sumQty o.items p.id }) ∧
    (updateOrderStatusLocal
        (updateOrderStatusLocal s orderId OrderStatus.CANCELED)
        orderId OrderStatus.CANCELED).products =
      (updateOrderStatusLocal s orderId OrderStatus.CANCELED).products := by
  have hs1 : updateOrderStatusLocal s orderId OrderStatus.CANCELED =
      { s with
        products := some (o.items.foldl applyRestore (getProducts s)),
        orders := some (updateFirst (fun q => q.id == orderId)
          (fun q => { q with status := OrderStatus.CANCELED }) (getOrders s)) } := by
    rw [updateOrderStatusLocal, hfind]
    simp [hnc]
  constructor
  · intro i p hp
    rw [hs1]
    exact getElem?_foldl_applyRestore hids hp
  · have hfind2 : (getOrders (updateOrderStatusLocal s orderId OrderStatus.CANCELED)).find?
        (fun q => q.id == orderId) = some { o with status := OrderStatus.CANCELED } := by
      rw [hs1]
      show (updateFirst (fun q => q.id == orderId)
          (fun q => { q with status := OrderStatus.CANCELED }) (getOrders s)).find?
          (fun q => q.id == orderId) = _
      rw [find?_updateFirst (fun q : Order => q.id == orderId)
        (fun q : Order => { q with status := OrderStatus.CANCELED })
        (fun q => rfl) (getOrders s), hfind]
      rfl
    rw [updateOrderStatusLocal, hfind2]
    simp

def c4Prod : Product :=
  { id := "prod_a", name := "Cerveja Gelada 600ml", description := "gelada",
    price := 15, category := Category.BEBIDAS, stock := 5, imageUrl := "u1" }

def c4Item : OrderItem :=
  { productId := "prod_a", name := "Cerveja Gelada 600ml", price := 15, quantity := 2 }

def c4Order : Order :=
  { id := "order_1", tableId := TId.num 3, status := OrderStatus.PENDING,
    timestamp := 50, items := [c4Item], total := 30, observation := "" }

def c4Store : Store :=
  { products := some [c4Prod], orders := some [c4Order], tables := none }

theorem c4_cancel_restores_stock_once_witness :
    (getProducts (updateOrderStatusLocal c4Store "order_1" OrderStatus.CANCELED))[0]? =
      some { c4Prod with stock := 7 } ∧
    (updateOrderStatusLocal
        (updateOrderStatusLocal c4Store "order_1" OrderStatus.CANCELED)
        "order_1" OrderStatus.CANCELED).products =
      (updateOrderStatusLocal c4Store "order_1" OrderStatus.CANCELED).products := by
  have h := c4_cancel_restores_stock_once c4Store "order_1" c4Order (by decide)
    (by decide) (by decide)
  refine ⟨(h.1 0 c4Prod (by decide)).trans ?_, h.2⟩
  have hz : c4Prod.stock + sumQty c4Order.items c4Prod.id = 7 := by
    rw [c4Prod, c4Order, sumQty]
    norm_num [c4Item]
  rw [hz]

def c1Existing : Product :=
  { id := "prod1", name := "Cerveja Gelada 600ml", description := "old text",
    price := 10, category := Category.BEBIDAS, stock := 5, imageUrl := "img1" }

def c1Incoming : Product :=
  { id := "", name := "Cerveja Gelada 600ml", description := "new text",
    price := 12, category := Category.BEBIDAS, stock := 3, imageUrl := "" }

def c1Store : Store :=
  { products := some [c1Existing], orders := none, tables := none }

/-- C1 counterexample: a fallback-mode saveProduct with an empty identifier
and a name matching the stored product performs the restock merge (stock
summed to 8, price overwritten to 12, image kept), but the stored
description stays the existing old text instead of being overwritten by
the incoming new text, so the claim fails as stated on the fallback
branch. -/
theorem c1_counterexample :
    c1Incoming.id = "" ∧
    c1Existing.name = c1Incoming.name ∧
    getProducts (saveProductLocal c1Store c1Incoming 42) =
      [{ c1Existing with stock := 8, price := 12 }] ∧
    ({ c1Existing with stock := 8, price := 12 } : Product).description = "old text" ∧
    c1Incoming.description = "new text" ∧
    ("old text" : String) ≠ "new text" := by
  refine ⟨rfl, rfl, ?_, rfl, rfl, by decide⟩
  show saveProductList [c1Existing] c1Incoming 42 = _
  rw [saveProductList, if_neg (by decide), if_pos (by decide)]
  show [mergeRestock c1Existing (withGeneratedId c1Incoming 42)] = _
  rw [mergeRestock]
  have hz : c1Existing.stock + (withGeneratedId c1Incoming 42).stock = (8 : ℚ) := by
    rw [c1Existing]
    norm_num [withGeneratedId, c1Incoming]
  rw [hz]
  rfl

/-- C1 amended: for every saveProduct call with an empty identifier whose
name matches an existing persisted product (in a catalog whose records all
carry non-empty identifiers), the operation is a restock merge: the
stock of the resulting product equals the sum of the existing stock and the
incoming stock, its price is overwritten, its image is overwritten with
the incoming image falling back to the existing one when empty, and no
second record with that name is created.  The description is overwritten
only by the cloud branch; the fallback branch keeps the existing
description unchanged. -/
theorem c1_amended_restock_merge (s : Store) (incoming ex : Product) (now : Int)
    (ps2 : List Product) (ex2 : Product) (newId : String)
    (hid : incoming.id = "")
    (hnoempty : ∀ p ∈ getProducts s, ¬ p.id = "")
    (hfind : (getProducts s).find? (fun p => p.name == incoming.name) = some ex)
    (hfind2 : ps2.find? (fun p => p.name == incoming.name) = some ex2) :
    ((getProducts (saveProductLocal s incoming now)).length =
        (getProducts s).length ∧
      (getProducts (saveProductLocal s incoming now)).find?
          (fun p => p.name == incoming.name) =
        some { ex with
          stock := ex.stock + incoming.stock,
          price := incoming.price,
          imageUrl := if incoming.imageUrl = "" then ex.imageUrl
            else incoming.imageUrl }) ∧
    ((saveProductCloud ps2 incoming newId).length = ps2.length ∧
      (saveProductCloud ps2 incoming newId).find?
          (fun p => p.name == incoming.name) =
        some { ex2 with
          stock := ex2.stock + incoming.stock,
          price := incoming.price,
          description := incoming.description,
          imageUrl := if incoming.imageUrl = "" then ex2.imageUrl
            else incoming.imageUrl }) := by
  have hany1 : (getProducts s).any (fun p => p.id == incoming.id) = false := by
    rw [List.any_eq_false]
    intro p hp
    simp [hid, hnoempty p hp]
  have hpeq : ∀ p ∈ getProducts s,
      (p.name == incoming.name && p.id != incoming.id) =
      (p.name == incoming.name) := by
    intro p hp
    have hne : (p.id != incoming.id) = true := by
      simp [hid, hnoempty p hp]
    rw [hne, Bool.and_true]
  have hpx := List.find?_some hfind
  have hpx2 := List.find?_some hfind2
  have hany2 : (getProducts s).any
      (fun p => p.name == incoming.name && p.id != incoming.id) = true := by
    rw [any_eq_of_congr hpeq, List.any_eq_true]
    exact ⟨ex, List.mem_of_find?_eq_some hfind, hpx⟩
  have hw : withGeneratedId incoming now =
      { incoming with id := "local_" ++ toString now } := by
    rw [withGeneratedId, if_pos]
    rw [hid]
    decide
  have hstep : getProducts (saveProductLocal s incoming now) =
      updateFirst (fun p => p.name == incoming.name)
        (fun p => mergeRestock p (withGeneratedId incoming now)) (getProducts s) := by
    show saveProductList (getProducts s) incoming now = _
    rw [saveProductList, if_neg (by simp [hany1]), if_pos hany2]
    exact updateFirst_congr hpeq
  refine ⟨⟨?_, ?_⟩, ?_, ?_⟩
  · rw [hstep, length_updateFirst]
  · rw [hstep, find?_updateFirst (fun p => p.name == incoming.name)
      (fun p => mergeRestock p (withGeneratedId incoming now))
      (fun a => rfl) (getProducts s), hfind, Option.map_some', mergeRestock, hw]
  · rw [saveProductCloud, if_neg (by simp [hid]), if_pos ?_]
    · rw [length_updateFirst]
    · rw [List.any_eq_true]
      exact ⟨ex2, List.mem_of_find?_eq_some hfind2, hpx2⟩
  · rw [saveProductCloud, if_neg (by simp [hid]),
      if_pos (List.any_eq_true.mpr
        ⟨ex2, List.mem_of_find?_eq_some hfind2, hpx2⟩),
      find?_updateFirst (fun p => p.name == incoming.name)
        (fun p => { p with
          stock := p.stock + incoming.stock,
          price := incoming.price,
          description := incoming.description,
          imageUrl := if incoming.imageUrl = "" then p.imageUrl
            else incoming.imageUrl })
        (fun a => rfl) ps2, hfind2, Option.map_some']

theorem c1_amended_restock_merge_witness :
    (getProducts (saveProductLocal c1Store c1Incoming 42)).find?
        (fun p => p.name == c1Incoming.name) =
      some { c1Existing with stock := 8, price := 12 } := by
  have h := c1_amended_restock_merge c1Store c1Incoming c1Existing 42
    [c1Existing] c1Existing "cloud_1" rfl (by decide) (by decide) (by decide)
  refine h.1.2.trans ?_
  have hz : c1Existing.stock + c1Incoming.stock = (8 : ℚ) := by
    rw [c1Existing, c1Incoming]
    norm_num
  rw [hz]
  rfl


def c7PlaceholderCompiled : DatabaseConfig :=
  { apiKey := "COLAR_AQUI_SUA_API_KEY", authDomain := "", projectId := "",
    storageBucket := "", messagingSenderId := "", appId := "" }

def c7PlaceholderArg : DatabaseConfig :=
  { apiKey := "COLAR_OUTRA_CHAVE", authDomain := "d", projectId := "p",
    storageBucket := "b", messagingSenderId := "m", appId := "a" }

def c7Env : InitEnv :=
  { appsExist := false, reuseOk := false, compiled := c7PlaceholderCompiled,
    stored := none, connect := ConnectOutcome.ok }

/-- C7 counterexample: with an invalid compiled-in configuration, init
makes a connection attempt for an explicitly supplied configuration whose
API key is the known placeholder string; the placeholder test guards only
the compiled-in source, so a connection attempt is made for a
configuration that is not valid in the sense of the claim. -/
theorem c7_counterexample :
    (init c7Env (some c7PlaceholderArg)).attempted = some c7PlaceholderArg ∧
    isPlaceholder c7PlaceholderArg.apiKey = true := by
  refine ⟨by decide, by decide⟩

/-- C7 amended: a connection attempt is made only for a resolved
configuration whose API key is present (non-empty); the placeholder test
is applied only to the compiled-in configuration, which when valid is the
configuration attempted; and when no usable configuration can be resolved
(and no existing backend instance is reused), init reports failure and
leaves the backend handle unset (fallback mode). -/
theorem c7_amended_init_validity (env : InitEnv) (arg : Option DatabaseConfig) :
    (∀ c, (init env arg).attempted = some c → c.apiKey ≠ "") ∧
    (validCompiled env.compiled = true → (env.appsExist && env.reuseOk) = false →
      (init env arg).attempted = some env.compiled) ∧
    ((env.appsExist && env.reuseOk) = false → (init env arg).attempted = none →
      (init env arg).success = false ∧ (init env arg).dbSet = false) := by
  refine ⟨?_, ?_, ?_⟩
  · intro c hc
    rw [init] at hc
    by_cases hreuse : (env.appsExist && env.reuseOk) = true
    · rw [if_pos hreuse] at hc
      simp at hc
    · rw [if_neg hreuse] at hc
      cases hcfg : resolveConfig env arg with
      | none =>
        rw [hcfg] at hc
        simp at hc
      | some c1 =>
        rw [hcfg] at hc
        have hc2 : (connectWith c1 env.connect).attempted = some c := hc
        rw [connectWith.eq_def] at hc2
        by_cases hk : (c1.apiKey != "") = true
        · rw [if_pos hk] at hc2
          have hc1 : c1 = c := by
            cases hcon : env.connect <;> rw [hcon] at hc2 <;> simpa using hc2
          subst hc1
          simpa using hk
        · rw [if_neg hk] at hc2
          simp at hc2
  · intro hvc hfalse
    rw [init, if_neg (by simp [hfalse])]
    have hcfg : resolveConfig env arg = some env.compiled := by
      rw [resolveConfig.eq_def, if_pos hvc]
    rw [hcfg]
    show (connectWith env.compiled env.connect).attempted = some env.compiled
    have hk : (env.compiled.apiKey != "") = true := by
      rw [validCompiled, Bool.and_eq_true] at hvc
      exact hvc.1
    rw [connectWith.eq_def, if_pos hk]
    cases env.connect <;> rfl
  · intro hfalse hnone
    rw [init, if_neg (by simp [hfalse])] at hnone ⊢
    cases hcfg : resolveConfig env arg with
    | none => exact ⟨rfl, rfl⟩
    | some c1 =>
      rw [hcfg] at hnone
      have hnone2 : (connectWith c1 env.connect).attempted = none := hnone
      rw [connectWith.eq_def] at hnone2
      by_cases hk : (c1.apiKey != "") = true
      · rw [if_pos hk] at hnone2
        cases hcon : env.connect <;> rw [hcon] at hnone2 <;> simp at hnone2
      · constructor
        · show (connectWith c1 env.connect).success = false
          rw [connectWith.eq_def, if_neg hk]
        · show (connectWith c1 env.connect).dbSet = false
          rw [connectWith.eq_def, if_neg hk]

def c7ValidCompiled : DatabaseConfig :=
  { apiKey := "AIzaSyRealDeploymentKey", authDomain := "d", projectId := "p",
    storageBucket := "b", messagingSenderId := "m", appId := "a" }

def c7ValidEnv : InitEnv :=
  { appsExist := false, reuseOk := false, compiled := c7ValidCompiled,
    stored := none, connect := ConnectOutcome.ok }

theorem c7_amended_init_validity_witness :
    (init c7ValidEnv none).attempted = some c7ValidEnv.compiled :=
  (c7_amended_init_validity c7ValidEnv none).2.1 (by decide) (by decide)
